import Mathlib

/-!
Shallow embedding of the resumable chunked transfer logic of `drive.py`
(python-drivelib).

Byte strings are modelled as `List Nat`.  Each HTTP response consumed by a
transfer loop is supplied explicitly by the environment as a structure holding
the fields the code reads (status, the headers it accesses, the body).  The
md5 accumulator of `ResumableUploadRequest` is modelled by the exact list of
bytes that has been fed to it; its hex digest is an arbitrary function `H` of
that list, passed as a parameter (the code's behaviour depends on `hashlib.md5`
only through the digest of the fed byte sequence).
-/

namespace Drivelib

abbrev Byte := Nat

/-- Default chunk size of `DriveFile.download` (drive.py line 201): `10**7`. -/
def downloadChunksizeDefault : Nat := 10 ^ 7

/-- Default chunk size of `DriveFile.upload` (drive.py line 232): `10*1024**2`. -/
def uploadChunksizeDefault : Nat := 10 * 1024 ^ 2

/-- One response of the environment to a ranged download request
(drive.py lines 221-223): the status code, the `content-length` header the code
reads on line 226, and the body bytes written to the sink on line 225. -/
structure DownloadResponse where
  status : Nat
  contentLength : Nat
  content : List Byte
deriving DecidableEq

/-- Terminal state of a run of the download loop: normal return of the while
loop (`success`), the `HttpError` raise of line 230 (`transportError`), an
exception raised by the progress handler on line 228 (`aborted`), or the
environment ran out of supplied responses (`outOfResponses`).  Each carries the
sink contents and the progress variable `local_file_size` at that point. -/
inductive DownloadOutcome where
  | success (sink : List Byte) (progress : Nat)
  | transportError (status : Nat) (sink : List Byte) (progress : Nat)
  | aborted (sink : List Byte) (progress : Nat)
  | outOfResponses (sink : List Byte) (progress : Nat)
deriving DecidableEq

/-- Observable trace of a download run: the byte ranges requested (lines
216-217), the arguments of the progress-handler invocations (line 228), and the
terminal outcome. -/
structure DownloadRun where
  requests : List (Nat × Nat)
  calls : List Nat
  outcome : DownloadOutcome
deriving DecidableEq

/-- The `Range` header string built on lines 216-217:
`"bytes=" + str(p) + "-" + str(p + chunksize - 1)`. -/
def downloadRangeHeader (p chunksize : Nat) : String :=
  "bytes=" ++ toString p ++ "-" ++ toString (p + chunksize - 1)

/-- The while loop of `DriveFile.download` (drive.py lines 215-230).
State: remaining environment responses, `local_file_size` (progress), and the
sink contents.  On a 206 response the body is appended to the sink and progress
advances by the `content-length` header (lines 224-226), then the progress
handler runs (lines 227-228); any other status raises `HttpError` (line 230). -/
def downloadLoop (chunksize total : Nat) (handler : Nat → Bool) :
    List DownloadResponse → Nat → List Byte → DownloadRun
  | resps, p, sink =>
    if total ≤ p then ⟨[], [], .success sink p⟩
    else
      match resps with
      | [] => ⟨[], [], .outOfResponses sink p⟩
      | r :: rest =>
        if r.status = 206 then
          if handler (p + r.contentLength) then
            let run := downloadLoop chunksize total handler rest
              (p + r.contentLength) (sink ++ r.content)
            ⟨(p, p + chunksize - 1) :: run.requests,
              (p + r.contentLength) :: run.calls, run.outcome⟩
          else
            ⟨[(p, p + chunksize - 1)], [p + r.contentLength],
              .aborted (sink ++ r.content) (p + r.contentLength)⟩
        else ⟨[(p, p + chunksize - 1)], [], .transportError r.status sink p⟩

/-- `DriveFile.download` (drive.py lines 201-230).  `sinkInit` is the current
content of the local file (`[]` when it does not exist); the file is opened in
append mode (line 214) and the starting progress is its size (lines 202-205). -/
def DriveFile.download (sinkInit : List Byte) (remoteSize chunksize : Nat)
    (handler : Nat → Bool) (resps : List DownloadResponse) : DownloadRun :=
  downloadLoop chunksize remoteSize handler resps sinkInit.length sinkInit

/-- The progress variable carried by a download outcome. -/
def DownloadOutcome.progressOf : DownloadOutcome → Nat
  | .success _ p => p
  | .transportError _ _ p => p
  | .aborted _ p => p
  | .outOfResponses _ p => p

/-- The sink contents carried by a download outcome. -/
def DownloadOutcome.sinkOf : DownloadOutcome → List Byte
  | .success s _ => s
  | .transportError _ s _ => s
  | .aborted s _ => s
  | .outOfResponses s _ => s

/-- Whether the outcome is the normal return of the download while loop. -/
def DownloadOutcome.isSuccess : DownloadOutcome → Bool
  | .success _ _ => true
  | _ => false

/-- Well-formedness of a download response list relative to a starting
progress: every 206 response acknowledges at most the bytes that remain below
`total` at the moment it is consumed. -/
def wfDownloadResponses (total : Nat) : Nat → List DownloadResponse → Bool
  | _, [] => true
  | p, r :: rest =>
    (!(decide (r.status = 206)) || decide (r.contentLength ≤ total - p)) &&
      wfDownloadResponses total (p + r.contentLength) rest

/-- Errors raised by `ResumableUploadRequest`: the `raise Exception(status)` of
the progress probe (line 313, `protocolError`), the `raise Exception(status)`
of a chunk request (line 334, `transportError`), the `KeyError` implicit in
reading a missing `x-range-md5` header on line 340 (`keyError`), and the
`raise Exception("Checksum mismatch. ...")` of line 341 (`checksumMismatch`). -/
inductive UploadErr where
  | protocolError (status : Nat)
  | transportError (status : Nat)
  | keyError
  | checksumMismatch
deriving DecidableEq

/-- Environment response to the zero-length progress probe (line 310): status
code and, when present, the upper bound `k` of a `range: bytes=0-k` header. -/
structure ProbeResponse where
  status : Nat
  range : Option Nat
deriving DecidableEq

/-- Environment response to a chunk `PUT` (line 332): status code, the
`x-range-md5` header read on line 340, and the response body (`none` models an
empty, falsy body). -/
structure ChunkResponse where
  status : Nat
  xRangeMd5 : Option String
  body : Option String
deriving DecidableEq

/-- Mutable state of a `ResumableUploadRequest` (lines 270-277) together with
its source media: `sourceBytes` and `chunksize` model `media_body`,
`resumableUri` models `_resumable_uri`, `progress` models
`_resumable_progress`, and `rangeMd5` models `_range_md5` by the list of bytes
fed to the accumulator so far (`none` when the accumulator does not exist). -/
structure UploadSession where
  sourceBytes : List Byte
  chunksize : Nat
  resumableUri : Option String
  progress : Option Nat
  rangeMd5 : Option (List Byte)
deriving DecidableEq

/-- The `Content-Range` header of the probe request (line 309):
`"bytes */" + str(size)`. -/
def probeHeader (size : Nat) : String :=
  "bytes */" ++ toString size

/-- The zero-length probe request of line 310: a `Content-Length: 0` header and
the `bytes */size` content-range header. -/
structure ProbeRequest where
  contentLengthHeader : String
  contentRange : String
deriving DecidableEq

/-- Result of reading the `resumable_progress` property. -/
inductive ProbeOutcome where
  | ok (progress : Nat)
  | err (e : UploadErr)
deriving DecidableEq

/-- Result of one call to the property getter together with the updated session
and the probe request it issued (if any). -/
structure ProbeResult where
  session : UploadSession
  request : Option ProbeRequest
  result : ProbeOutcome
deriving DecidableEq

/-- The `resumable_progress` property getter (lines 306-322).  When the cached
value is absent it issues the zero-length probe and interprets the response:
status 200 gives the full size (line 316), a 308 with a `range` header gives
its upper bound plus one (lines 317-319), a 308 without one gives 0 (line 321),
and any other status raises (lines 312-313) before the cache is written. -/
def resumableProgressGet (s : UploadSession) (pr : ProbeResponse) : ProbeResult :=
  match s.progress with
  | some p => ⟨s, none, .ok p⟩
  | none =>
    let req : ProbeRequest := ⟨toString 0, probeHeader s.sourceBytes.length⟩
    if pr.status ≠ 200 ∧ pr.status ≠ 308 then
      ⟨s, some req, .err (.protocolError pr.status)⟩
    else if pr.status = 200 then
      ⟨{ s with progress := some s.sourceBytes.length }, some req,
        .ok s.sourceBytes.length⟩
    else
      match pr.range with
      | some k => ⟨{ s with progress := some (k + 1) }, some req, .ok (k + 1)⟩
      | none => ⟨{ s with progress := some 0 }, some req, .ok 0⟩

/-- The chunk `PUT` request built on lines 329-332: content length
`min(size - progress, chunksize)`, the declared content range, and the body
bytes `getbytes(progress, content_length)`. -/
structure ChunkRequest where
  contentLength : Nat
  rangeFrom : Nat
  rangeTo : Int
  rangeTotal : Nat
  content : List Byte
deriving DecidableEq

/-- The `Content-Range` header of a chunk request (line 330):
`"bytes " + str(p) + "-" + str(p + n - 1) + "/" + str(size)`.  The arithmetic
is over integers: for `p = n = 0` the header is `bytes 0--1/0`. -/
def contentRangeHeader (p n size : Nat) : String :=
  "bytes " ++ toString p ++ "-" ++ toString ((p : Int) + (n : Int) - 1) ++
    "/" ++ toString size

/-- Result of a chunk transfer: the progress and response body returned on line
347, or the exception raised. -/
inductive ChunkOutcome where
  | ok (progress : Nat) (body : Option String)
  | err (e : UploadErr)
deriving DecidableEq

/-- Result of one `next_chunk` call: the session as mutated up to the point of
return (or of the raise), the chunk request issued (absent when the progress
probe already raised), and the outcome. -/
structure NextChunkResult where
  session : UploadSession
  request : Option ChunkRequest
  result : ChunkOutcome
deriving DecidableEq

/-- The chunk transfer of `ResumableUploadRequest.next_chunk` after the
`resumable_progress` property has resolved to `p` (drive.py lines 329-347),
parameterised by the digest function `H` of the md5 accumulator.  It issues the
chunk request of lines 329-332 and interprets the response: any status other than 200/308
raises (lines 333-334); on 308 the accumulator is created and seeded with
`getbytes(0, progress)` if absent (lines 336-338), fed the chunk content (line
339), compared against the `x-range-md5` header (lines 340-341), and progress
advances by the content length (line 342); on 200 progress becomes the full
size (lines 343-344). -/
def next_chunk_core (H : List Byte → String) (s1 : UploadSession) (p : Nat)
    (cr : ChunkResponse) : NextChunkResult :=
    let size := s1.sourceBytes.length
    let n := min (size - p) s1.chunksize
    let content := (s1.sourceBytes.drop p).take n
    let req : ChunkRequest := ⟨n, p, (p : Int) + (n : Int) - 1, size, content⟩
    if cr.status ≠ 200 ∧ cr.status ≠ 308 then
      ⟨s1, some req, .err (.transportError cr.status)⟩
    else if cr.status = 308 then
      let fed :=
        (match s1.rangeMd5 with
          | none => s1.sourceBytes.take p
          | some f => f) ++ content
      let s2 := { s1 with rangeMd5 := some fed }
      match cr.xRangeMd5 with
      | none => ⟨s2, some req, .err .keyError⟩
      | some d =>
        if d ≠ H fed then ⟨s2, some req, .err .checksumMismatch⟩
        else ⟨{ s2 with progress := some (p + n) }, some req,
          .ok (p + n) cr.body⟩
    else ⟨{ s1 with progress := some size }, some req, .ok size cr.body⟩

/-- `ResumableUploadRequest.next_chunk` (drive.py lines 328-347): resolve the
`resumable_progress` property (line 329, possibly probing) and run the chunk
transfer of `next_chunk_core` with the resolved progress. -/
def next_chunk (H : List Byte → String) (s : UploadSession)
    (pr : ProbeResponse) (cr : ChunkResponse) : NextChunkResult :=
  match resumableProgressGet s pr with
  | ⟨s1, _, .err e⟩ => ⟨s1, none, .err e⟩
  | ⟨s1, _, .ok p⟩ => next_chunk_core H s1 p cr

/-- Terminal state of the upload driving loop of `DriveFile.upload` (lines
245-253): the loop returned normally with a truthy response body (`success`),
`next_chunk` raised (`failed`), the progress handler raised (`aborted`), or the
environment ran out of responses (`outOfResponses`).  Each carries the session
object in its state at that point. -/
inductive UploadOutcome where
  | success (s : UploadSession) (body : String)
  | failed (e : UploadErr) (s : UploadSession)
  | aborted (s : UploadSession) (progress : Nat)
  | outOfResponses (s : UploadSession)
deriving DecidableEq

/-- Observable trace of an upload run: how many chunk requests were issued, the
progress values passed to the handler (line 250), and the terminal outcome. -/
structure UploadRun where
  chunkRequests : Nat
  calls : List Nat
  outcome : UploadOutcome
deriving DecidableEq

/-- The session object carried by an upload outcome. -/
def UploadOutcome.sessionOf : UploadOutcome → UploadSession
  | .success s _ => s
  | .failed _ s => s
  | .aborted s _ => s
  | .outOfResponses s => s

/-- Whether the outcome is the normal return of the upload while loop. -/
def UploadOutcome.isSuccess : UploadOutcome → Bool
  | .success _ _ => true
  | _ => false

/-- The `while not response` loop of `DriveFile.upload` (lines 245-250): call
`next_chunk`, store the resumable uri on the file, invoke the progress handler
with the returned status (which may raise, modelled by `handler` returning
`false`), and stop once the response body is truthy.  Each loop iteration
consumes one (probe response, chunk response) pair from the environment; the
probe response is only read by a `next_chunk` whose progress cache is empty. -/
def uploadLoop (H : List Byte → String) (handler : Nat → Bool) :
    List (ProbeResponse × ChunkResponse) → UploadSession → UploadRun
  | [], s => ⟨0, [], .outOfResponses s⟩
  | (pr, cr) :: rest, s =>
    let r := next_chunk H s pr cr
    let k := if r.request.isSome then 1 else 0
    match r.result with
    | .err e => ⟨k, [], .failed e r.session⟩
    | .ok prog body =>
      if handler prog then
        match body with
        | some b => ⟨k, [prog], .success r.session b⟩
        | none =>
          let run := uploadLoop H handler rest r.session
          ⟨k + run.chunkRequests, prog :: run.calls, run.outcome⟩
      else ⟨k, [prog], .aborted r.session prog⟩

/-- `DriveFile.upload` (lines 232-253): build a fresh `ResumableUploadRequest`
(empty progress cache, no md5 accumulator) over the local source and the given
chunk size, adopt the given resumable uri, and drive the loop. -/
def DriveFile.upload (H : List Byte → String) (source : List Byte)
    (chunksize : Nat) (resumableUri : Option String) (handler : Nat → Bool)
    (resps : List (ProbeResponse × ChunkResponse)) : UploadRun :=
  uploadLoop H handler resps ⟨source, chunksize, resumableUri, none, none⟩

/-- Well-formedness of the chunk responses of an upload run: a 308
(resume-incomplete) response has an empty body, so that the driving loop only
stops on a final 200 response. -/
def wfChunkResponses : List (ProbeResponse × ChunkResponse) → Bool
  | [] => true
  | rc :: rest =>
    (!(decide (rc.2.status = 308)) || decide (rc.2.body = none)) &&
      wfChunkResponses rest

/-! ### Helper lemmas -/

theorem resumableProgressGet_cached (s : UploadSession) (pr : ProbeResponse)
    (p : Nat) (hp : s.progress = some p) :
    resumableProgressGet s pr = ⟨s, none, .ok p⟩ := by
  unfold resumableProgressGet
  rw [hp]

theorem resumableProgressGet_fields (s : UploadSession) (pr : ProbeResponse) :
    (resumableProgressGet s pr).session.sourceBytes = s.sourceBytes ∧
    (resumableProgressGet s pr).session.chunksize = s.chunksize ∧
    (resumableProgressGet s pr).session.resumableUri = s.resumableUri ∧
    (resumableProgressGet s pr).session.rangeMd5 = s.rangeMd5 := by
  unfold resumableProgressGet
  repeat' split
  all_goals simp

theorem resumableProgressGet_ok (s : UploadSession) (pr : ProbeResponse)
    (p : Nat) (h : (resumableProgressGet s pr).result = .ok p) :
    (resumableProgressGet s pr).session.progress = some p := by
  revert h
  unfold resumableProgressGet
  repeat' split
  all_goals intro h
  all_goals simp_all

theorem next_chunk_fields (H : List Byte → String) (s : UploadSession)
    (pr : ProbeResponse) (cr : ChunkResponse) :
    (next_chunk H s pr cr).session.sourceBytes = s.sourceBytes ∧
    (next_chunk H s pr cr).session.chunksize = s.chunksize ∧
    (next_chunk H s pr cr).session.resumableUri = s.resumableUri := by
  have hf := resumableProgressGet_fields s pr
  unfold next_chunk next_chunk_core
  repeat' split
  all_goals try simp_all
  all_goals repeat' split
  all_goals simp_all

theorem next_chunk_ok_progress (H : List Byte → String) (s : UploadSession)
    (pr : ProbeResponse) (cr : ChunkResponse) (prog : Nat) (body : Option String)
    (h : (next_chunk H s pr cr).result = .ok prog body) :
    (next_chunk H s pr cr).session.progress = some prog := by
  revert h
  unfold next_chunk next_chunk_core
  repeat' split
  all_goals intro h
  all_goals try simp_all
  all_goals repeat' split
  all_goals simp_all

theorem next_chunk_cached (H : List Byte → String) (s : UploadSession)
    (pr : ProbeResponse) (cr : ChunkResponse) (p : Nat) (hp : s.progress = some p) :
    next_chunk H s pr cr = next_chunk_core H s p cr := by
  unfold next_chunk
  rw [resumableProgressGet_cached s pr p hp]

theorem next_chunk_core_fields (H : List Byte → String) (s1 : UploadSession)
    (p : Nat) (cr : ChunkResponse) :
    (next_chunk_core H s1 p cr).session.sourceBytes = s1.sourceBytes ∧
    (next_chunk_core H s1 p cr).session.chunksize = s1.chunksize ∧
    (next_chunk_core H s1 p cr).session.resumableUri = s1.resumableUri := by
  unfold next_chunk_core
  repeat' split
  all_goals try simp
  all_goals repeat' split
  all_goals simp

theorem next_chunk_core_request (H : List Byte → String) (s1 : UploadSession)
    (p : Nat) (cr : ChunkResponse) :
    (next_chunk_core H s1 p cr).request =
      some ⟨min (s1.sourceBytes.length - p) s1.chunksize, p,
        (p : Int) + ((min (s1.sourceBytes.length - p) s1.chunksize : Nat) : Int) - 1,
        s1.sourceBytes.length,
        (s1.sourceBytes.drop p).take (min (s1.sourceBytes.length - p) s1.chunksize)⟩ := by
  unfold next_chunk_core
  repeat' split
  all_goals try simp
  all_goals repeat' split
  all_goals simp

theorem next_chunk_core_ok (H : List Byte → String) (s1 : UploadSession)
    (p : Nat) (cr : ChunkResponse) (prog : Nat) (body : Option String)
    (h : (next_chunk_core H s1 p cr).result = .ok prog body) :
    (next_chunk_core H s1 p cr).session.progress = some prog ∧ body = cr.body ∧
      ((cr.status = 200 ∧ prog = s1.sourceBytes.length) ∨
        (cr.status = 308 ∧
          prog = p + min (s1.sourceBytes.length - p) s1.chunksize)) := by
  revert h
  unfold next_chunk_core
  repeat' split
  all_goals intro h
  all_goals try simp_all
  all_goals repeat' split
  all_goals simp_all

theorem next_chunk_core_err (H : List Byte → String) (s1 : UploadSession)
    (p : Nat) (cr : ChunkResponse) (e : UploadErr)
    (h : (next_chunk_core H s1 p cr).result = .err e) :
    (next_chunk_core H s1 p cr).session.progress = s1.progress := by
  revert h
  unfold next_chunk_core
  repeat' split
  all_goals intro h
  all_goals try simp_all
  all_goals repeat' split
  all_goals simp_all

theorem wfChunkResponses_cons (rc : ProbeResponse × ChunkResponse)
    (rest : List (ProbeResponse × ChunkResponse))
    (h : wfChunkResponses (rc :: rest) = true) :
    (rc.2.status = 308 → rc.2.body = none) ∧ wfChunkResponses rest = true := by
  unfold wfChunkResponses at h
  simp at h
  refine ⟨fun h308 => ?_, h.2⟩
  rcases h.1 with hne | hb
  · exact absurd h308 hne
  · exact hb

theorem wfDownloadResponses_cons (total p : Nat) (r : DownloadResponse)
    (rest : List DownloadResponse)
    (h : wfDownloadResponses total p (r :: rest) = true) :
    (r.status = 206 → r.contentLength ≤ total - p) ∧
      wfDownloadResponses total (p + r.contentLength) rest = true := by
  unfold wfDownloadResponses at h
  simp at h
  refine ⟨fun h206 => ?_, h.2⟩
  rcases h.1 with hne | hb
  · exact absurd h206 hne
  · exact hb

theorem downloadLoop_nil (c total : Nat) (handler : Nat → Bool) (p : Nat)
    (sink : List Byte) :
    downloadLoop c total handler [] p sink =
      if total ≤ p then ⟨[], [], .success sink p⟩
      else ⟨[], [], .outOfResponses sink p⟩ := by
  rw [downloadLoop]

theorem downloadLoop_cons (c total : Nat) (handler : Nat → Bool)
    (r : DownloadResponse) (rest : List DownloadResponse) (p : Nat)
    (sink : List Byte) :
    downloadLoop c total handler (r :: rest) p sink =
      if total ≤ p then ⟨[], [], .success sink p⟩
      else if r.status = 206 then
        if handler (p + r.contentLength) then
          let run := downloadLoop c total handler rest (p + r.contentLength)
            (sink ++ r.content)
          ⟨(p, p + c - 1) :: run.requests, (p + r.contentLength) :: run.calls,
            run.outcome⟩
        else
          ⟨[(p, p + c - 1)], [p + r.contentLength],
            .aborted (sink ++ r.content) (p + r.contentLength)⟩
      else ⟨[(p, p + c - 1)], [], .transportError r.status sink p⟩ := by
  rw [downloadLoop]

theorem uploadLoop_nil (H : List Byte → String) (handler : Nat → Bool)
    (s : UploadSession) :
    uploadLoop H handler [] s = ⟨0, [], .outOfResponses s⟩ := by
  rw [uploadLoop]

theorem uploadLoop_cons (H : List Byte → String) (handler : Nat → Bool)
    (pr : ProbeResponse) (cr : ChunkResponse)
    (rest : List (ProbeResponse × ChunkResponse)) (s : UploadSession) :
    uploadLoop H handler ((pr, cr) :: rest) s =
      (let r := next_chunk H s pr cr
       let k := if r.request.isSome then 1 else 0
       match r.result with
       | .err e => ⟨k, [], .failed e r.session⟩
       | .ok prog body =>
         if handler prog then
           match body with
           | some b => ⟨k, [prog], .success r.session b⟩
           | none =>
             let run := uploadLoop H handler rest r.session
             ⟨k + run.chunkRequests, prog :: run.calls, run.outcome⟩
         else ⟨k, [prog], .aborted r.session prog⟩) := by
  rw [uploadLoop]

theorem downloadLoop_progress (c total : Nat) (handler : Nat → Bool)
    (resps : List DownloadResponse) :
    ∀ (p : Nat) (sink : List Byte), p ≤ total →
      wfDownloadResponses total p resps = true →
      p ≤ (downloadLoop c total handler resps p sink).outcome.progressOf ∧
      (downloadLoop c total handler resps p sink).outcome.progressOf ≤ total ∧
      ((downloadLoop c total handler resps p sink).outcome.isSuccess = true →
        (downloadLoop c total handler resps p sink).outcome.progressOf = total) := by
  induction resps with
  | nil =>
    intro p sink hp _
    rw [downloadLoop_nil]
    split
    · simp only [DownloadOutcome.progressOf, DownloadOutcome.isSuccess]
      omega
    · simp only [DownloadOutcome.progressOf, DownloadOutcome.isSuccess]
      simp
      exact hp
  | cons r rest ih =>
    intro p sink hp hwf
    obtain ⟨hwf1, hwf2⟩ := wfDownloadResponses_cons total p r rest hwf
    rw [downloadLoop_cons]
    by_cases hle : total ≤ p
    · rw [if_pos hle]
      simp only [DownloadOutcome.progressOf, DownloadOutcome.isSuccess]
      omega
    · rw [if_neg hle]
      by_cases h206 : r.status = 206
      · rw [if_pos h206]
        have hcl : r.contentLength ≤ total - p := hwf1 h206
        have hp' : p + r.contentLength ≤ total := by omega
        by_cases hh : handler (p + r.contentLength) = true
        · rw [if_pos hh]
          dsimp only
          obtain ⟨ih1, ih2, ih3⟩ :=
            ih (p + r.contentLength) (sink ++ r.content) hp' hwf2
          exact ⟨by omega, ih2, ih3⟩
        · rw [if_neg hh]
          simp only [DownloadOutcome.progressOf, DownloadOutcome.isSuccess]
          simp
          omega
      · rw [if_neg h206]
        simp only [DownloadOutcome.progressOf, DownloadOutcome.isSuccess]
        simp
        exact hp

theorem downloadLoop_sink (c total : Nat) (handler : Nat → Bool)
    (resps : List DownloadResponse) :
    ∀ (p : Nat) (sink : List Byte),
      ∃ t, (downloadLoop c total handler resps p sink).outcome.sinkOf =
        sink ++ t := by
  induction resps with
  | nil =>
    intro p sink
    rw [downloadLoop_nil]
    split
    · exact ⟨[], by simp [DownloadOutcome.sinkOf]⟩
    · exact ⟨[], by simp [DownloadOutcome.sinkOf]⟩
  | cons r rest ih =>
    intro p sink
    rw [downloadLoop_cons]
    by_cases hle : total ≤ p
    · rw [if_pos hle]
      exact ⟨[], by simp [DownloadOutcome.sinkOf]⟩
    · rw [if_neg hle]
      by_cases h206 : r.status = 206
      · rw [if_pos h206]
        by_cases hh : handler (p + r.contentLength) = true
        · rw [if_pos hh]
          obtain ⟨t, ht⟩ := ih (p + r.contentLength) (sink ++ r.content)
          exact ⟨r.content ++ t, by simp only [ht, List.append_assoc]⟩
        · rw [if_neg hh]
          exact ⟨r.content, by simp [DownloadOutcome.sinkOf]⟩
      · rw [if_neg h206]
        exact ⟨[], by simp [DownloadOutcome.sinkOf]⟩

theorem uploadLoop_progress (H : List Byte → String) (handler : Nat → Bool)
    (resps : List (ProbeResponse × ChunkResponse)) :
    ∀ (s : UploadSession) (p : Nat), s.progress = some p →
      p ≤ s.sourceBytes.length → wfChunkResponses resps = true →
      ∃ p', ((uploadLoop H handler resps s).outcome.sessionOf).progress = some p' ∧
        p ≤ p' ∧ p' ≤ s.sourceBytes.length ∧
        ((uploadLoop H handler resps s).outcome.isSuccess = true →
          p' = s.sourceBytes.length) := by
  induction resps with
  | nil =>
    intro s p hp hple _
    rw [uploadLoop_nil]
    exact ⟨p, by simpa [UploadOutcome.sessionOf] using hp, le_refl p, hple,
      by simp [UploadOutcome.isSuccess]⟩
  | cons rc rest ih =>
    intro s p hp hple hwf
    obtain ⟨pr, cr⟩ := rc
    obtain ⟨hwf1, hwf2⟩ := wfChunkResponses_cons (pr, cr) rest hwf
    rw [uploadLoop_cons]
    rw [next_chunk_cached H s pr cr p hp]
    dsimp only
    have hfields := next_chunk_core_fields H s p cr
    rcases hres : (next_chunk_core H s p cr).result with ⟨prog, body⟩ | e
    · obtain ⟨hprog, hbody, hstat⟩ := next_chunk_core_ok H s p cr prog body hres
      have hbounds : p ≤ prog ∧ prog ≤ s.sourceBytes.length := by
        rcases hstat with ⟨_, hpe⟩ | ⟨_, hpe⟩
        · exact ⟨hpe ▸ hple, hpe ▸ le_refl _⟩
        · have hmin := Nat.min_le_left (s.sourceBytes.length - p) s.chunksize
          omega
      simp only [hres]
      by_cases hh : handler prog = true
      · rw [if_pos hh]
        cases hbd : body with
        | some b =>
          have hstat200 : prog = s.sourceBytes.length := by
            rcases hstat with ⟨_, hpe⟩ | ⟨h308, _⟩
            · exact hpe
            · rw [hwf1 h308] at hbody
              rw [hbd] at hbody
              cases hbody
          dsimp only
          exact ⟨prog, hprog, hbounds.1, hbounds.2, fun _ => hstat200⟩
        | none =>
          dsimp only
          obtain ⟨p', ih1, ih2, ih3, ih4⟩ := ih (next_chunk_core H s p cr).session
            prog hprog (by rw [hfields.1]; exact hbounds.2) hwf2
          rw [hfields.1] at ih3 ih4
          exact ⟨p', ih1, le_trans hbounds.1 ih2, ih3, ih4⟩
      · rw [if_neg hh]
        exact ⟨prog, by simpa [UploadOutcome.sessionOf] using hprog, hbounds.1,
          hbounds.2, by simp [UploadOutcome.isSuccess]⟩
    · have hperr := next_chunk_core_err H s p cr e hres
      simp only [hres]
      refine ⟨p, ?_, le_refl p, hple, by simp [UploadOutcome.isSuccess]⟩
      simp only [UploadOutcome.sessionOf]
      rw [hperr, hp]

/-! ### Claims -/

/-- C1: the claim states that a download session whose progress reaches
`totalSize` — in particular one whose local sink already equals or exceeds
`totalSize` at open time — computes a full-content checksum of the sink and
compares it with the remote checksum.  The code has no checksum logic at all in
`DriveFile.download`: here two no-op downloads of the same 3-byte remote object
over sinks with different contents both finish in the `success` outcome,
without any integrity comparison, although at most one of the two sinks can
match the remote object's checksum.  The repository's own test
`test_download_local_file_does_not_match` expects a `CheckSumError` in this
situation, so the claim matches the intent and the code is missing the check. -/
theorem C1_download_no_checksum_eval :
    DriveFile.download [9, 9, 9] 3 downloadChunksizeDefault (fun _ => true) [] =
      ⟨[], [], .success [9, 9, 9] 3⟩ ∧
    DriveFile.download [1, 2, 3] 3 downloadChunksizeDefault (fun _ => true) [] =
      ⟨[], [], .success [1, 2, 3] 3⟩ :=
  ⟨rfl, rfl⟩

/-- C2: the claim states that a 308 chunk response whose remote digest
disagrees with the local incremental digest makes `next_chunk` fail with a
checksum-mismatch error, not advance progress, and invalidate the resumable
handle.  In the code the first two parts hold but the handle is NOT
invalidated: after the raise, `_resumable_uri` is still set both on the request
object and on the file (the repository's own tests assert
`remote_file.resumable_uri == None` after this failure, so the code diverges
from the intent).  The evaluation below shows the error with progress kept at 2
and the uri still present, at the request level and the driving-loop level. -/
theorem C2_checksum_mismatch_handle_kept_eval :
    (next_chunk (fun _ => "aa")
        ⟨[1, 2, 3, 4], 2, some ("uri"), some 2, some [1, 2]⟩
        ⟨200, none⟩ ⟨308, some ("zz"), none⟩).result = .err .checksumMismatch ∧
    (next_chunk (fun _ => "aa")
        ⟨[1, 2, 3, 4], 2, some ("uri"), some 2, some [1, 2]⟩
        ⟨200, none⟩ ⟨308, some ("zz"), none⟩).session.progress = some 2 ∧
    (next_chunk (fun _ => "aa")
        ⟨[1, 2, 3, 4], 2, some ("uri"), some 2, some [1, 2]⟩
        ⟨200, none⟩ ⟨308, some ("zz"), none⟩).session.resumableUri = some ("uri") ∧
    (uploadLoop (fun _ => "aa") (fun _ => true)
        [(⟨200, none⟩, ⟨308, some ("zz"), none⟩)]
        ⟨[1, 2, 3, 4], 2, some ("uri"), some 2, some [1, 2]⟩).outcome =
      .failed .checksumMismatch
        ⟨[1, 2, 3, 4], 2, some ("uri"), some 2, some [1, 2, 3, 4]⟩ :=
  ⟨rfl, rfl, rfl, rfl⟩

/-- C3: when an upload session's progress is first queried (the cache is
empty), a zero-length probe request with content-range `bytes */totalSize` is
issued; a 200 response yields progress `totalSize`; a 308 response with range
`bytes=0-k` yields `k + 1`; a 308 response without a range yields `0`; any
other status raises the protocol error and the cached progress stays unset. -/
theorem C3_resumable_progress_probe (s : UploadSession) (pr : ProbeResponse)
    (hnone : s.progress = none) :
    (resumableProgressGet s pr).request =
      some ⟨toString 0, "bytes */" ++ toString s.sourceBytes.length⟩ ∧
    (pr.status = 200 →
      (resumableProgressGet s pr).result = .ok s.sourceBytes.length ∧
      (resumableProgressGet s pr).session.progress =
        some s.sourceBytes.length) ∧
    (∀ k, pr.status = 308 → pr.range = some k →
      (resumableProgressGet s pr).result = .ok (k + 1) ∧
      (resumableProgressGet s pr).session.progress = some (k + 1)) ∧
    (pr.status = 308 → pr.range = none →
      (resumableProgressGet s pr).result = .ok 0 ∧
      (resumableProgressGet s pr).session.progress = some 0) ∧
    (pr.status ≠ 200 → pr.status ≠ 308 →
      (resumableProgressGet s pr).result = .err (.protocolError pr.status) ∧
      (resumableProgressGet s pr).session = s) := by
  unfold resumableProgressGet
  rw [hnone]
  refine ⟨?_, ?_, ?_, ?_, ?_⟩
  · repeat' split
    all_goals simp_all [probeHeader]
  · intro h200
    simp [h200]
  · intro k h308 hrange
    simp [h308, hrange]
  · intro h308 hrange
    simp [h308, hrange]
  · intro hne200 hne308
    simp [hne200, hne308]

theorem C3_witness :
    ((⟨[1, 2], 4, none, none, none⟩ : UploadSession).progress = none) ∧
    (resumableProgressGet ⟨[1, 2], 4, none, none, none⟩ ⟨308, some 0⟩).request =
      some ⟨toString 0, "bytes */" ++ toString (2 : Nat)⟩ ∧
    (resumableProgressGet ⟨[1, 2], 4, none, none, none⟩ ⟨308, some 0⟩).result =
      .ok 1 :=
  ⟨rfl,
    (C3_resumable_progress_probe ⟨[1, 2], 4, none, none, none⟩ ⟨308, some 0⟩ rfl).1,
    (C3_resumable_progress_probe ⟨[1, 2], 4, none, none, none⟩ ⟨308, some 0⟩
      rfl).2.2.1 0 rfl rfl |>.1⟩

/-- C4: a `next_chunk` call at cached progress `p` over a source of size `s`
issues exactly one chunk request whose length is `n = min(chunkSize, s - p)`,
whose body is exactly the `n` source bytes starting at offset `p`, and whose
content-range declares `[p, p + n - 1]` of total `s`. -/
theorem C4_chunk_request_shape (H : List Byte → String) (s : UploadSession)
    (pr : ProbeResponse) (cr : ChunkResponse) (p : Nat)
    (hp : s.progress = some p) :
    ∃ req, (next_chunk H s pr cr).request = some req ∧
      req.contentLength = min s.chunksize (s.sourceBytes.length - p) ∧
      req.content = (s.sourceBytes.drop p).take req.contentLength ∧
      req.content.length = req.contentLength ∧
      req.rangeFrom = p ∧
      req.rangeTo = (p : Int) + (req.contentLength : Int) - 1 ∧
      req.rangeTotal = s.sourceBytes.length := by
  rw [next_chunk_cached H s pr cr p hp, next_chunk_core_request H s p cr]
  refine ⟨_, rfl, Nat.min_comm _ _, rfl, ?_, rfl, rfl, rfl⟩
  rw [List.length_take, List.length_drop]
  exact Nat.min_eq_left (Nat.min_le_left _ _)

theorem C4_witness :
    ((⟨[1, 2, 3, 4, 5], 2, none, some 1, none⟩ : UploadSession).progress =
      some 1) ∧
    (∃ req,
      (next_chunk (fun _ => "") ⟨[1, 2, 3, 4, 5], 2, none, some 1, none⟩
          ⟨200, none⟩ ⟨500, none, none⟩).request = some req ∧
      req.contentLength = min 2 (5 - 1) ∧
      req.content = (([1, 2, 3, 4, 5] : List Byte).drop 1).take req.contentLength ∧
      req.content.length = req.contentLength ∧
      req.rangeFrom = 1 ∧
      req.rangeTo = (1 : Int) + (req.contentLength : Int) - 1 ∧
      req.rangeTotal = 5) :=
  ⟨rfl,
    C4_chunk_request_shape (fun _ => "") ⟨[1, 2, 3, 4, 5], 2, none, some 1, none⟩
      ⟨200, none⟩ ⟨500, none, none⟩ 1 rfl⟩

/-- C5 (counterexample): the claim requires `0 ≤ progress ≤ totalSize` within a
session and `progress = totalSize` exactly at success, but a download whose
local sink already exceeds the remote size starts at progress 6 > 5 and
reaches the success outcome with progress 6 ≠ 5. -/
theorem C5_counterexample :
    DriveFile.download [7, 7, 7, 7, 7, 7] 5 10 (fun _ => true) [] =
      ⟨[], [], .success [7, 7, 7, 7, 7, 7] 6⟩ ∧
    ¬ (6 ≤ 5) :=
  ⟨rfl, by decide⟩

/-- C5 (amended): provided the starting progress does not exceed `totalSize`
and the remote's responses are well formed (each 308 continuation has an empty
body, each acknowledged download chunk stays within `totalSize`), progress is
monotonically non-decreasing across the chunk loop, stays within
`[0, totalSize]`, equals `totalSize` once the loop reaches the success outcome,
and a failed `next_chunk` never advances the cached progress.  Without that
proviso a download whose sink already exceeds `totalSize` succeeds with
progress above `totalSize`. -/
theorem C5_progress_invariant_amended :
    (∀ (H : List Byte → String) (handler : Nat → Bool)
        (resps : List (ProbeResponse × ChunkResponse)) (s : UploadSession)
        (p : Nat),
      s.progress = some p → p ≤ s.sourceBytes.length →
      wfChunkResponses resps = true →
      ∃ p', ((uploadLoop H handler resps s).outcome.sessionOf).progress =
          some p' ∧
        p ≤ p' ∧ p' ≤ s.sourceBytes.length ∧
        ((uploadLoop H handler resps s).outcome.isSuccess = true →
          p' = s.sourceBytes.length)) ∧
    (∀ (c total : Nat) (handler : Nat → Bool) (resps : List DownloadResponse)
        (sinkInit : List Byte),
      sinkInit.length ≤ total →
      wfDownloadResponses total sinkInit.length resps = true →
      sinkInit.length ≤
        (DriveFile.download sinkInit total c handler resps).outcome.progressOf ∧
      (DriveFile.download sinkInit total c handler resps).outcome.progressOf ≤
        total ∧
      ((DriveFile.download sinkInit total c handler resps).outcome.isSuccess =
          true →
        (DriveFile.download sinkInit total c handler resps).outcome.progressOf =
          total)) ∧
    (∀ (H : List Byte → String) (s : UploadSession) (pr : ProbeResponse)
        (cr : ChunkResponse) (p : Nat) (e : UploadErr),
      s.progress = some p → (next_chunk H s pr cr).result = .err e →
      (next_chunk H s pr cr).session.progress = some p) := by
  refine ⟨fun H handler resps s p hp hple hwf =>
      uploadLoop_progress H handler resps s p hp hple hwf,
    fun c total handler resps sinkInit hle hwf =>
      downloadLoop_progress c total handler resps sinkInit.length sinkInit hle hwf,
    fun H s pr cr p e hp herr => ?_⟩
  rw [next_chunk_cached H s pr cr p hp] at herr ⊢
  rw [next_chunk_core_err H s p cr e herr, hp]

theorem C5_witness :
    ((⟨[1, 2], 1, none, some 0, none⟩ : UploadSession).progress = some 0 ∧
      wfChunkResponses [] = true ∧
      ∃ p', ((uploadLoop (fun _ => "") (fun _ => true) []
          ⟨[1, 2], 1, none, some 0, none⟩).outcome.sessionOf).progress =
            some p' ∧
        0 ≤ p' ∧ p' ≤ 2 ∧
        ((uploadLoop (fun _ => "") (fun _ => true) []
            ⟨[1, 2], 1, none, some 0, none⟩).outcome.isSuccess = true →
          p' = 2)) ∧
    (wfDownloadResponses 2 0 [⟨206, 2, [5, 5]⟩] = true ∧
      0 ≤ (DriveFile.download [] 2 10 (fun _ => true)
          [⟨206, 2, [5, 5]⟩]).outcome.progressOf ∧
      (DriveFile.download [] 2 10 (fun _ => true)
          [⟨206, 2, [5, 5]⟩]).outcome.progressOf ≤ 2 ∧
      ((DriveFile.download [] 2 10 (fun _ => true)
          [⟨206, 2, [5, 5]⟩]).outcome.isSuccess = true →
        (DriveFile.download [] 2 10 (fun _ => true)
            [⟨206, 2, [5, 5]⟩]).outcome.progressOf = 2)) ∧
    ((next_chunk (fun _ => "") ⟨[1, 2], 1, none, some 0, none⟩ ⟨200, none⟩
        ⟨500, none, none⟩).result = .err (.transportError 500) ∧
      (next_chunk (fun _ => "") ⟨[1, 2], 1, none, some 0, none⟩ ⟨200, none⟩
          ⟨500, none, none⟩).session.progress = some 0) :=
  ⟨⟨rfl, rfl,
      C5_progress_invariant_amended.1 (fun _ => "") (fun _ => true) []
        ⟨[1, 2], 1, none, some 0, none⟩ 0 rfl (by decide) rfl⟩,
    ⟨rfl,
      C5_progress_invariant_amended.2.1 10 2 (fun _ => true) [⟨206, 2, [5, 5]⟩]
        [] (by decide) rfl⟩,
    ⟨rfl,
      C5_progress_invariant_amended.2.2 (fun _ => "")
        ⟨[1, 2], 1, none, some 0, none⟩ ⟨200, none⟩ ⟨500, none, none⟩ 0
        (.transportError 500) rfl rfl⟩⟩

/-- C6 (counterexample): the claim says each download range request covers
`[progress, progress + n - 1]` with `n = min(chunkSize, totalSize - progress)`
and that a short write (fewer body bytes than the declared content-length) is a
fatal error.  With `totalSize = 5`, `chunkSize = 10` the code requests
`bytes=0-9` instead of the claimed `bytes=0-4`, and a 206 response declaring
content-length 5 with only 2 body bytes is accepted: the run ends in `success`
with a 2-byte sink and progress 5. -/
theorem C6_counterexample :
    (DriveFile.download [] 5 10 (fun _ => true) [⟨206, 5, [1, 2]⟩]).requests =
      [(0, 9)] ∧
    ((0 : Nat), (9 : Nat)) ≠ ((0 : Nat), 0 + min 10 (5 - 0) - 1) ∧
    (DriveFile.download [] 5 10 (fun _ => true) [⟨206, 5, [1, 2]⟩]).outcome =
      .success [1, 2] 5 :=
  ⟨rfl, by decide, rfl⟩

/-- C6 (amended): while `progress < totalSize` the session issues a range
request for `[progress, progress + chunkSize - 1]` — the upper bound is not
clamped to `totalSize`; on a 206 response it appends the returned bytes to the
sink (opened append-only: the initial sink contents stay a prefix of the final
sink, and starting progress equals the sink's size) and advances progress by
the declared content-length without checking it against the number of bytes
actually returned; any other status is a fatal transport error leaving sink
and progress unchanged. -/
theorem C6_download_chunk_amended :
    (∀ (sinkInit : List Byte) (total c : Nat) (handler : Nat → Bool)
        (resps : List DownloadResponse),
      DriveFile.download sinkInit total c handler resps =
        downloadLoop c total handler resps sinkInit.length sinkInit) ∧
    (∀ (c total p : Nat) (handler : Nat → Bool) (sink : List Byte)
        (r : DownloadResponse) (rest : List DownloadResponse), p < total →
      (downloadLoop c total handler (r :: rest) p sink).requests.head? =
        some (p, p + c - 1)) ∧
    (∀ (c total p : Nat) (handler : Nat → Bool) (sink : List Byte)
        (r : DownloadResponse) (rest : List DownloadResponse), p < total →
      r.status = 206 → handler (p + r.contentLength) = true →
      (downloadLoop c total handler (r :: rest) p sink).outcome =
        (downloadLoop c total handler rest (p + r.contentLength)
          (sink ++ r.content)).outcome) ∧
    (∀ (c total p : Nat) (handler : Nat → Bool) (sink : List Byte)
        (r : DownloadResponse) (rest : List DownloadResponse), p < total →
      r.status ≠ 206 →
      (downloadLoop c total handler (r :: rest) p sink).outcome =
        .transportError r.status sink p) ∧
    (∀ (c total : Nat) (handler : Nat → Bool) (resps : List DownloadResponse)
        (p : Nat) (sink : List Byte),
      ∃ t, (downloadLoop c total handler resps p sink).outcome.sinkOf =
        sink ++ t) := by
  refine ⟨fun _ _ _ _ _ => rfl, ?_, ?_, ?_,
    fun c total handler resps p sink => downloadLoop_sink c total handler resps p sink⟩
  · intro c total p handler sink r rest hlt
    rw [downloadLoop_cons, if_neg (not_le.mpr hlt)]
    by_cases h206 : r.status = 206
    · rw [if_pos h206]
      by_cases hh : handler (p + r.contentLength) = true
      · rw [if_pos hh]
        rfl
      · rw [if_neg hh]
        rfl
    · rw [if_neg h206]
      rfl
  · intro c total p handler sink r rest hlt h206 hh
    rw [downloadLoop_cons, if_neg (not_le.mpr hlt), if_pos h206, if_pos hh]
  · intro c total p handler sink r rest hlt h206
    rw [downloadLoop_cons, if_neg (not_le.mpr hlt), if_neg h206]

theorem C6_witness :
    (DriveFile.download [3] 9 4 (fun _ => true) [⟨206, 2, [5, 5]⟩] =
      downloadLoop 4 9 (fun _ => true) [⟨206, 2, [5, 5]⟩] 1 [3]) ∧
    (1 < 9 ∧
      (downloadLoop 4 9 (fun _ => true) [⟨206, 2, [5, 5]⟩] 1 [3]).requests.head? =
        some (1, 1 + 4 - 1)) ∧
    ((downloadLoop 4 9 (fun _ => true) [⟨206, 2, [5, 5]⟩] 1 [3]).outcome =
      (downloadLoop 4 9 (fun _ => true) [] (1 + 2) ([3] ++ [5, 5])).outcome) ∧
    ((downloadLoop 4 9 (fun _ => true) [⟨500, 2, [5, 5]⟩] 1 [3]).outcome =
      .transportError 500 [3] 1) ∧
    (∃ t, (downloadLoop 4 9 (fun _ => true) [⟨206, 2, [5, 5]⟩] 1
        [3]).outcome.sinkOf = [3] ++ t) :=
  ⟨C6_download_chunk_amended.1 [3] 9 4 (fun _ => true) [⟨206, 2, [5, 5]⟩],
    ⟨by decide,
      C6_download_chunk_amended.2.1 4 9 1 (fun _ => true) [3] ⟨206, 2, [5, 5]⟩
        [] (by decide)⟩,
    C6_download_chunk_amended.2.2.1 4 9 1 (fun _ => true) [3] ⟨206, 2, [5, 5]⟩
      [] (by decide) rfl rfl,
    C6_download_chunk_amended.2.2.2.1 4 9 1 (fun _ => true) [3] ⟨500, 2, [5, 5]⟩
      [] (by decide) (by decide),
    C6_download_chunk_amended.2.2.2.2 4 9 (fun _ => true) [⟨206, 2, [5, 5]⟩] 1
      [3]⟩

/-- C7: the progress observer runs synchronously exactly once after each
successfully completed chunk and never after a failed one; an observer abort
leaves the loop in the distinguished `aborted` outcome — a different
constructor from the transport-error outcome — the chunk just confirmed is kept
(sink appended / progress advanced / session state saved), and the session's
resumable handle and progress survive so a new session can resume from the
confirmed offset. -/
theorem C7_observer_contract :
    (∀ (c total p : Nat) (handler : Nat → Bool) (sink : List Byte)
        (r : DownloadResponse) (rest : List DownloadResponse), p < total →
      r.status ≠ 206 →
      (downloadLoop c total handler (r :: rest) p sink).calls = []) ∧
    (∀ (c total p : Nat) (handler : Nat → Bool) (sink : List Byte)
        (r : DownloadResponse) (rest : List DownloadResponse), p < total →
      r.status = 206 → handler (p + r.contentLength) = true →
      (downloadLoop c total handler (r :: rest) p sink).calls =
        (p + r.contentLength) ::
          (downloadLoop c total handler rest (p + r.contentLength)
            (sink ++ r.content)).calls) ∧
    (∀ (c total p : Nat) (handler : Nat → Bool) (sink : List Byte)
        (r : DownloadResponse) (rest : List DownloadResponse), p < total →
      r.status = 206 → handler (p + r.contentLength) = false →
      (downloadLoop c total handler (r :: rest) p sink).calls =
        [p + r.contentLength] ∧
      (downloadLoop c total handler (r :: rest) p sink).outcome =
        .aborted (sink ++ r.content) (p + r.contentLength) ∧
      ∀ st sk q, DownloadOutcome.aborted (sink ++ r.content)
        (p + r.contentLength) ≠ .transportError st sk q) ∧
    (∀ (H : List Byte → String) (handler : Nat → Bool) (s : UploadSession)
        (p : Nat) (pr : ProbeResponse) (cr : ChunkResponse)
        (rest : List (ProbeResponse × ChunkResponse)) (e : UploadErr),
      s.progress = some p → (next_chunk_core H s p cr).result = .err e →
      (uploadLoop H handler ((pr, cr) :: rest) s).calls = [] ∧
      (uploadLoop H handler ((pr, cr) :: rest) s).outcome =
        .failed e (next_chunk_core H s p cr).session) ∧
    (∀ (H : List Byte → String) (handler : Nat → Bool) (s : UploadSession)
        (p prog : Nat) (pr : ProbeResponse) (cr : ChunkResponse)
        (rest : List (ProbeResponse × ChunkResponse)) (body : Option String),
      s.progress = some p → (next_chunk_core H s p cr).result = .ok prog body →
      handler prog = true →
      (uploadLoop H handler ((pr, cr) :: rest) s).calls =
        prog :: (match body with
          | some _ => []
          | none =>
            (uploadLoop H handler rest (next_chunk_core H s p cr).session).calls)) ∧
    (∀ (H : List Byte → String) (handler : Nat → Bool) (s : UploadSession)
        (p prog : Nat) (pr : ProbeResponse) (cr : ChunkResponse)
        (rest : List (ProbeResponse × ChunkResponse)) (body : Option String),
      s.progress = some p → (next_chunk_core H s p cr).result = .ok prog body →
      handler prog = false →
      (uploadLoop H handler ((pr, cr) :: rest) s).calls = [prog] ∧
      (uploadLoop H handler ((pr, cr) :: rest) s).outcome =
        .aborted (next_chunk_core H s p cr).session prog ∧
      (next_chunk_core H s p cr).session.resumableUri = s.resumableUri ∧
      (next_chunk_core H s p cr).session.progress = some prog ∧
      ∀ e s2, UploadOutcome.aborted (next_chunk_core H s p cr).session prog ≠
        .failed e s2) := by
  refine ⟨?_, ?_, ?_, ?_, ?_, ?_⟩
  · intro c total p handler sink r rest hlt h206
    rw [downloadLoop_cons, if_neg (not_le.mpr hlt), if_neg h206]
  · intro c total p handler sink r rest hlt h206 hh
    rw [downloadLoop_cons, if_neg (not_le.mpr hlt), if_pos h206, if_pos hh]
  · intro c total p handler sink r rest hlt h206 hh
    rw [downloadLoop_cons, if_neg (not_le.mpr hlt), if_pos h206,
      if_neg (by simp [hh])]
    exact ⟨rfl, rfl, fun st sk q h => DownloadOutcome.noConfusion h⟩
  · intro H handler s p pr cr rest e hp hres
    rw [uploadLoop_cons, next_chunk_cached H s pr cr p hp]
    dsimp only
    simp only [hres]
    exact ⟨by simp, by simp⟩
  · intro H handler s p prog pr cr rest body hp hres hh
    rw [uploadLoop_cons, next_chunk_cached H s pr cr p hp]
    dsimp only
    simp only [hres]
    rw [if_pos hh]
    cases body with
    | some b => rfl
    | none => rfl
  · intro H handler s p prog pr cr rest body hp hres hh
    rw [uploadLoop_cons, next_chunk_cached H s pr cr p hp]
    dsimp only
    simp only [hres]
    rw [if_neg (by simp [hh])]
    exact ⟨rfl, rfl, (next_chunk_core_fields H s p cr).2.2,
      (next_chunk_core_ok H s p cr prog body hres).1,
      fun e s2 h => UploadOutcome.noConfusion h⟩

theorem C7_witness :
    ((downloadLoop 4 9 (fun _ => false) [⟨206, 2, [5, 5]⟩] 1 [3]).calls =
      [1 + 2] ∧
      (downloadLoop 4 9 (fun _ => false) [⟨206, 2, [5, 5]⟩] 1 [3]).outcome =
        .aborted ([3] ++ [5, 5]) (1 + 2) ∧
      ∀ st sk q, DownloadOutcome.aborted ([3] ++ [5, 5]) (1 + 2) ≠
        .transportError st sk q) ∧
    ((next_chunk_core (fun _ => "x") ⟨[1, 2], 1, some ("u"), some 0, none⟩ 0
        ⟨308, some ("x"), none⟩).result = .ok 1 none) ∧
    ((uploadLoop (fun _ => "x") (fun _ => false)
        [(⟨200, none⟩, ⟨308, some ("x"), none⟩)]
        ⟨[1, 2], 1, some ("u"), some 0, none⟩).calls = [1] ∧
      (uploadLoop (fun _ => "x") (fun _ => false)
          [(⟨200, none⟩, ⟨308, some ("x"), none⟩)]
          ⟨[1, 2], 1, some ("u"), some 0, none⟩).outcome =
        .aborted (next_chunk_core (fun _ => "x")
          ⟨[1, 2], 1, some ("u"), some 0, none⟩ 0 ⟨308, some ("x"), none⟩).session 1 ∧
      (next_chunk_core (fun _ => "x") ⟨[1, 2], 1, some ("u"), some 0, none⟩ 0
          ⟨308, some ("x"), none⟩).session.resumableUri = some ("u") ∧
      (next_chunk_core (fun _ => "x") ⟨[1, 2], 1, some ("u"), some 0, none⟩ 0
          ⟨308, some ("x"), none⟩).session.progress = some 1 ∧
      ∀ e s2, UploadOutcome.aborted (next_chunk_core (fun _ => "x")
          ⟨[1, 2], 1, some ("u"), some 0, none⟩ 0
          ⟨308, some ("x"), none⟩).session 1 ≠ .failed e s2) :=
  ⟨C7_observer_contract.2.2.1 4 9 1 (fun _ => false) [3] ⟨206, 2, [5, 5]⟩ []
      (by decide) rfl rfl,
    rfl,
    C7_observer_contract.2.2.2.2.2 (fun _ => "x") (fun _ => false)
      ⟨[1, 2], 1, some ("u"), some 0, none⟩ 0 1 ⟨200, none⟩
      ⟨308, some ("x"), none⟩ [] none rfl rfl rfl⟩

/-- C8 (counterexample): the claim states that with the chunk size left unset
the whole transfer happens in a single chunk sized to the object; the code's
unset chunk size is the fixed default `10**7` for downloads, so a download of a
`2 * 10**7`-byte object issues two range requests, not one. -/
theorem C8_counterexample :
    (DriveFile.download [] (2 * downloadChunksizeDefault)
        downloadChunksizeDefault (fun _ => true)
        [⟨206, downloadChunksizeDefault, []⟩,
          ⟨206, downloadChunksizeDefault, []⟩]).requests.length = 2 ∧
    (2 : Nat) ≠ 1 := by
  exact ⟨rfl, by decide⟩

/-- C8 (amended): leaving the chunk size unset selects the fixed defaults
`10**7` bytes (download) and `10 * 1024**2` bytes (upload), not the object
size; the transfer degenerates to a single chunk covering the whole object
exactly when `totalSize` is at most the default: a download of at most `10**7`
bytes completes with one range request, and an upload chunk at progress 0 over
a source of at most `10 * 1024**2` bytes covers the whole source. -/
theorem C8_default_chunksize_amended :
    downloadChunksizeDefault = 10 ^ 7 ∧
    uploadChunksizeDefault = 10 * 1024 ^ 2 ∧
    (∀ (total : Nat) (handler : Nat → Bool) (r : DownloadResponse),
      0 < total → total ≤ downloadChunksizeDefault → r.status = 206 →
      total ≤ r.contentLength → handler r.contentLength = true →
      (DriveFile.download [] total downloadChunksizeDefault handler
        [r]).requests.length = 1 ∧
      (DriveFile.download [] total downloadChunksizeDefault handler
        [r]).outcome = .success r.content r.contentLength) ∧
    (∀ (H : List Byte → String) (s : UploadSession) (pr : ProbeResponse)
        (cr : ChunkResponse),
      s.progress = some 0 → s.chunksize = uploadChunksizeDefault →
      s.sourceBytes.length ≤ uploadChunksizeDefault →
      ∃ req, (next_chunk H s pr cr).request = some req ∧
        req.contentLength = s.sourceBytes.length ∧ req.rangeFrom = 0) := by
  refine ⟨rfl, rfl, ?_, ?_⟩
  · intro total handler r h0 hle h206 hcl hh
    have h1 : DriveFile.download [] total downloadChunksizeDefault handler [r] =
        downloadLoop downloadChunksizeDefault total handler [r] 0 [] := rfl
    rw [h1, downloadLoop_cons, if_neg (by omega), if_pos h206, Nat.zero_add,
      if_pos hh, downloadLoop_nil, if_pos hcl]
    constructor
    · rfl
    · dsimp only
      simp
  · intro H s pr cr h0 hcs hlen
    rw [next_chunk_cached H s pr cr 0 h0, next_chunk_core_request H s 0 cr]
    refine ⟨_, rfl, ?_, rfl⟩
    show min (s.sourceBytes.length - 0) s.chunksize = s.sourceBytes.length
    rw [Nat.sub_zero, hcs]
    exact Nat.min_eq_left hlen

theorem C8_witness :
    ((DriveFile.download [] 3 downloadChunksizeDefault (fun _ => true)
        [⟨206, 3, [1, 2, 3]⟩]).requests.length = 1 ∧
      (DriveFile.download [] 3 downloadChunksizeDefault (fun _ => true)
        [⟨206, 3, [1, 2, 3]⟩]).outcome = .success [1, 2, 3] 3) ∧
    (∃ req, (next_chunk (fun _ => "")
        ⟨[1, 2], uploadChunksizeDefault, none, some 0, none⟩ ⟨200, none⟩
        ⟨500, none, none⟩).request = some req ∧
      req.contentLength = 2 ∧ req.rangeFrom = 0) :=
  ⟨C8_default_chunksize_amended.2.2.1 3 (fun _ => true) ⟨206, 3, [1, 2, 3]⟩
      (by decide) (by decide) rfl (by decide) rfl,
    C8_default_chunksize_amended.2.2.2 (fun _ => "")
      ⟨[1, 2], uploadChunksizeDefault, none, some 0, none⟩ ⟨200, none⟩
      ⟨500, none, none⟩ rfl rfl (by decide)⟩

/-- C9: uploading an empty local source (`totalSize = 0`) still performs
exactly one chunk request — with content length 0, body `[]` and content-range
`bytes 0--1/0` — and when the remote finalizes it with a 200 response carrying
the finished object's body, the driving loop stops in the success outcome with
progress `0 = totalSize`. -/
theorem C9_empty_upload (H : List Byte → String) (c : Nat) (u : Option String)
    (handler : Nat → Bool) (pr : ProbeResponse) (cr : ChunkResponse) (b : String)
    (hpr : pr.status = 200 ∨ (pr.status = 308 ∧ pr.range = none))
    (hcr : cr.status = 200) (hb : cr.body = some b) (hh : handler 0 = true) :
    (DriveFile.upload H [] c u handler [(pr, cr)]).chunkRequests = 1 ∧
    (DriveFile.upload H [] c u handler [(pr, cr)]).calls = [0] ∧
    (DriveFile.upload H [] c u handler [(pr, cr)]).outcome =
      .success ⟨[], c, u, some 0, none⟩ b ∧
    (next_chunk H ⟨[], c, u, none, none⟩ pr cr).request =
      some ⟨0, 0, (0 : Int) + (0 : Int) - 1, 0, []⟩ := by
  have hres : resumableProgressGet ⟨[], c, u, none, none⟩ pr =
      ⟨⟨[], c, u, some 0, none⟩, some ⟨toString 0, probeHeader 0⟩, .ok 0⟩ := by
    rcases hpr with h200 | ⟨h308, hrange⟩
    · unfold resumableProgressGet
      simp [h200]
    · unfold resumableProgressGet
      simp [h308, hrange]
  have hnext : next_chunk H ⟨[], c, u, none, none⟩ pr cr =
      ⟨⟨[], c, u, some 0, none⟩, some ⟨0, 0, (0 : Int) + (0 : Int) - 1, 0, []⟩,
        .ok 0 (some b)⟩ := by
    unfold next_chunk
    rw [hres]
    unfold next_chunk_core
    simp [hcr, hb]
  have hloop : DriveFile.upload H [] c u handler [(pr, cr)] =
      ⟨1, [0], .success ⟨[], c, u, some 0, none⟩ b⟩ := by
    unfold DriveFile.upload
    rw [uploadLoop_cons, hnext]
    simp [hh]
  exact ⟨by rw [hloop], by rw [hloop], by rw [hloop], by rw [hnext]⟩

theorem C9_witness :
    (DriveFile.upload (fun _ => "") [] 3 none (fun _ => true)
        [(⟨200, none⟩, ⟨200, none, some ("B")⟩)]).chunkRequests = 1 ∧
    (DriveFile.upload (fun _ => "") [] 3 none (fun _ => true)
        [(⟨200, none⟩, ⟨200, none, some ("B")⟩)]).calls = [0] ∧
    (DriveFile.upload (fun _ => "") [] 3 none (fun _ => true)
        [(⟨200, none⟩, ⟨200, none, some ("B")⟩)]).outcome =
      .success ⟨[], 3, none, some 0, none⟩ ("B") ∧
    (next_chunk (fun _ => "") ⟨[], 3, none, none, none⟩ ⟨200, none⟩
        ⟨200, none, some ("B")⟩).request =
      some ⟨0, 0, (0 : Int) + (0 : Int) - 1, 0, []⟩ :=
  C9_empty_upload (fun _ => "") 3 none (fun _ => true) ⟨200, none⟩
    ⟨200, none, some ("B")⟩ ("B") (Or.inl rfl) rfl rfl rfl

/-- C10: invariant of the upload checksum state: an existing accumulator is
never re-seeded — a `next_chunk` call only ever extends it with the chunk
content; when the accumulator is absent, a 308 chunk seeds it exactly once with
`getbytes(0, progress)` before feeding the chunk content; consequently,
whenever the accumulator holds exactly the first `progress` source bytes
before a chunk that a 308 response accepts, it holds exactly the first
`progress` source bytes afterwards, so its digest is the md5 of exactly the
first `progress` bytes of the local source after every accepted 308 chunk. -/
theorem C10_md5_invariant (H : List Byte → String) (s : UploadSession)
    (pr : ProbeResponse) (cr : ChunkResponse) (p : Nat)
    (hp : s.progress = some p) :
    (∀ f, s.rangeMd5 = some f →
      (next_chunk H s pr cr).session.rangeMd5 = some f ∨
      (next_chunk H s pr cr).session.rangeMd5 =
        some (f ++ (s.sourceBytes.drop p).take
          (min (s.sourceBytes.length - p) s.chunksize))) ∧
    (s.rangeMd5 = none → cr.status = 308 →
      (next_chunk H s pr cr).session.rangeMd5 =
        some (s.sourceBytes.take p ++ (s.sourceBytes.drop p).take
          (min (s.sourceBytes.length - p) s.chunksize))) ∧
    (∀ prog body,
      (s.rangeMd5 = none ∨ s.rangeMd5 = some (s.sourceBytes.take p)) →
      cr.status = 308 → (next_chunk H s pr cr).result = .ok prog body →
      (next_chunk H s pr cr).session.rangeMd5 =
        some (s.sourceBytes.take prog) ∧
      (next_chunk H s pr cr).session.progress = some prog) := by
  rw [next_chunk_cached H s pr cr p hp]
  refine ⟨?_, ?_, ?_⟩
  · intro f hf
    unfold next_chunk_core
    repeat' split
    all_goals try simp_all
    all_goals repeat' split
    all_goals simp_all
  · intro hnone h308
    unfold next_chunk_core
    repeat' split
    all_goals try simp_all
    all_goals repeat' split
    all_goals simp_all
  · intro prog body hacc h308
    rcases hacc with hnone | hsome
    all_goals unfold next_chunk_core
    all_goals repeat' split
    all_goals intro hres
    all_goals try simp_all [List.take_add]
    all_goals repeat' split
    all_goals try simp_all [List.take_add]
    all_goals rw [← hres.1, List.take_add]

theorem C10_witness :
    ((⟨[1, 2, 3, 4], 2, none, some 2, some [1, 2]⟩ : UploadSession).progress =
      some 2) ∧
    ((⟨[1, 2, 3, 4], 2, none, some 2, some [1, 2]⟩ : UploadSession).rangeMd5 =
      some (([1, 2, 3, 4] : List Byte).take 2)) ∧
    ((next_chunk (fun _ => "d") ⟨[1, 2, 3, 4], 2, none, some 2, some [1, 2]⟩
        ⟨200, none⟩ ⟨308, some ("d"), none⟩).result = .ok 4 none) ∧
    ((next_chunk (fun _ => "d") ⟨[1, 2, 3, 4], 2, none, some 2, some [1, 2]⟩
        ⟨200, none⟩ ⟨308, some ("d"), none⟩).session.rangeMd5 =
      some (([1, 2, 3, 4] : List Byte).take 4) ∧
      (next_chunk (fun _ => "d") ⟨[1, 2, 3, 4], 2, none, some 2, some [1, 2]⟩
          ⟨200, none⟩ ⟨308, some ("d"), none⟩).session.progress = some 4) :=
  ⟨rfl, rfl, rfl,
    (C10_md5_invariant (fun _ => "d")
        ⟨[1, 2, 3, 4], 2, none, some 2, some [1, 2]⟩ ⟨200, none⟩
        ⟨308, some ("d"), none⟩ 2 rfl).2.2 4 none (Or.inr rfl) rfl rfl⟩

end Drivelib
